import Mathlib

set_option autoImplicit false

/-!
Shallow embedding of the `server-in-rust` repository
(`src/service.rs`, `src/server.rs`, `src/request.rs`, `src/handler.rs`).

Bytes are modeled as `Nat` (each byte of a real buffer is `< 256`; the cursor
itself never constrains byte values, matching the raw pointer reads in the
source). The target platform is 64-bit little-endian, the platform the
repository's own tests assume (`usize`/`isize` are 8 bytes, and a raw
`ptr.read()` of a scalar equals the little-endian interpretation of its
bytes). Scalar values are represented by their bit patterns as `Nat`, which
covers the unsigned integers directly, the signed integers through the
two's-complement maps `toBits`/`fromBits`, and the floats as raw 4/8-byte
patterns.
-/

namespace ServerInRust

/-- Enum `HttpStatus` from `service.rs`: `Success` or `Failed`. -/
inductive HttpStatus where
  | Success
  | Failed
deriving DecidableEq

/-- Struct `Payload` from `service.rs`: `data: *const u8, len: usize`.
`buf` is the byte buffer the data pointer points into, `off` is the
pointer's offset from the start of that buffer (the `data` field is `buf`'s
base address plus `off`), and `len` is the stored `len` field. The source
never updates `len` after construction; a successful read advances only the
pointer. The method `Payload::len()` returns the stored `len` field, i.e.
`p.len` here. -/
structure Payload where
  buf : List Nat
  off : Nat
  len : Nat
deriving DecidableEq

/-- Function `Payload::from_bytes`: pointer at the start of `bytes`, `len`
set to the byte count. -/
def Payload.from_bytes (bytes : List Nat) : Payload :=
  { buf := bytes, off := 0, len := bytes.length }

/-- Little-endian value of a byte list: `leVal [b0, b1, b2] = b0 + 256*(b1 + 256*b2)`. -/
def leVal : List Nat → Nat
  | [] => 0
  | b :: bs => b + 256 * leVal bs

/-- The unsafe `t_ptr.read()` of an `s`-byte scalar at pointer offset `off`,
modeled as the little-endian interpretation of bytes `off .. off + s` of the
buffer (the target is little-endian). Bytes outside the allocation — where
the source's read is undefined behavior — are modeled as the fixed value 0
(`List.take` simply runs out of bytes, and missing high bytes contribute 0
to the little-endian value). -/
def readRaw (buf : List Nat) (off s : Nat) : Nat :=
  leVal ((buf.drop off).take s)

/-- Impl `FromPayload for T where T: BasicType` (`service.rs` lines 65-81):
`let payload_size = payload.len(); if payload_size >= T::SIZE` then advance
the data pointer by `T::SIZE` and return the raw pointer read, else
`Err("Failed to extract args from payload")`. Note the comparison uses the
stored `len` field, which reads never decrement. -/
def readBasic (s : Nat) (p : Payload) : Except String (Nat × Payload) :=
  if s ≤ p.len then
    Except.ok (readRaw p.buf p.off s, { p with off := p.off + s })
  else
    Except.error "Failed to extract args from payload"

/-- The argument-tuple decoders, erased to the list of element byte widths:
`decodeTuple (s :: rest)` is the macro `tuple_impl_from_payload`
(`service.rs` lines 102-128), which decodes each element in declared order
with `let $T = $T::from(payload)?;`, and `decodeTuple []` is
`impl FromPayload for ()` (`service.rs` lines 96-100), which returns
`Ok(())` without touching the payload. -/
def decodeTuple : List Nat → Payload → Except String (List Nat × Payload)
  | [], p => Except.ok ([], p)
  | s :: rest, p =>
    match readBasic s p with
    | Except.error e => Except.error e
    | Except.ok (v, p') =>
      match decodeTuple rest p' with
      | Except.error e => Except.error e
      | Except.ok (vs, p'') => Except.ok (v :: vs, p'')

/-- The types marked `BasicType` by `mark_basic_type!` in `service.rs`. -/
inductive ScalarType where
  | f32 | f64
  | i8 | i16 | i32 | i64 | isize
  | u8 | u16 | u32 | u64 | usize
deriving DecidableEq

/-- Constant `T::SIZE = std::mem::size_of::<T>()` for each `BasicType`, on the
64-bit target. -/
def ScalarType.size : ScalarType → Nat
  | .f32 => 4
  | .f64 => 8
  | .i8 => 1
  | .i16 => 2
  | .i32 => 4
  | .i64 => 8
  | .isize => 8
  | .u8 => 1
  | .u16 => 2
  | .u32 => 4
  | .u64 => 8
  | .usize => 8

/-- Method `to_le_bytes` for a `w`-byte scalar whose bit pattern is `v`:
low byte first. -/
def encodeLE : Nat → Nat → List Nat
  | 0, _ => []
  | w + 1, v => v % 256 :: encodeLE w (v / 256)

/-- Two's-complement bit pattern of a signed `w`-byte integer value. -/
def toBits (w : Nat) (i : Int) : Nat :=
  (i % ((2 : Int) ^ (8 * w))).toNat

/-- Signed interpretation of a `w`-byte bit pattern. -/
def fromBits (w : Nat) (n : Nat) : Int :=
  if n < 2 ^ (8 * w - 1) then (n : Int) else (n : Int) - 2 ^ (8 * w)

/-- Struct `BoxedService` (`service.rs`): the type-erased closure
`Box<dyn Fn(Payload) -> HttpStatus>`. -/
structure BoxedService where
  service : Payload → HttpStatus

/-- Function `BoxedService::from_handler` (`service.rs` lines 20-31), with
the handler's argument tuple type erased to its list of element widths `ws`
and the handler to a function on the decoded values (`Factory::call` in
`handler.rs` spreads the tuple positionally, and `Res: Into<HttpStatus>`
converts the result; both are pure glue, so the composite is one function
`List Nat → HttpStatus`). On decode success the handler is called on the
decoded arguments; on decode failure the closure prints the message (an
I/O effect dropped in this model) and returns `HttpStatus::Failed`. -/
def BoxedService.from_handler (ws : List Nat) (handler : List Nat → HttpStatus) :
    BoxedService :=
  ⟨fun payload =>
    match decodeTuple ws payload with
    | Except.ok (args, _) => handler args
    | Except.error _ => HttpStatus.Failed⟩

/-- Enum `RequestType` from `request.rs`. -/
inductive RequestType where
  | get
  | post
deriving DecidableEq

/-- Struct `Request` from `request.rs`; `Path` is a wrapped `String`, kept
as `String` here (its `Eq`/`Hash` are those of the string). -/
structure Request where
  ty : RequestType
  path : String
  payload : List Nat

/-- Impl `Display for Path` (`server.rs`/`request.rs`) uses `writeln!`, so a
path displays with a trailing newline; `handle_request` builds its error
messages with this display. -/
def pathDisplay (p : String) : String := p ++ "\n"

/-- One verb's route table `HashMap<Path, BoxedService>`, modeled by its
lookup function (`HashMap::get`). -/
abbrev RouteMap := String → Option BoxedService

/-- Method `HashMap::insert`: binds `k` to `v`, replacing any prior binding. -/
def RouteMap.insert (m : RouteMap) (k : String) (v : BoxedService) : RouteMap :=
  fun k' => if k' = k then some v else m k'

/-- Struct `Server` (`server.rs` lines 8-12): one map per verb. -/
structure Server where
  get : RouteMap
  post : RouteMap

/-- Function `Server::new` / `Default`: both maps empty. -/
def Server.new : Server :=
  { get := fun _ => none, post := fun _ => none }

/-- Method `Server::get` (`server.rs` lines 19-30): wraps the callable in a
`Handler` and a `BoxedService` and inserts it into the GET map (the
`&mut Self` return for chaining is modeled by returning the new server). -/
def Server.route_get (s : Server) (path : String) (ws : List Nat)
    (handler : List Nat → HttpStatus) : Server :=
  { s with get := s.get.insert path (BoxedService.from_handler ws handler) }

/-- Method `Server::post` (`server.rs` lines 32-43): same as `Server::get`
for the POST map. -/
def Server.route_post (s : Server) (path : String) (ws : List Nat)
    (handler : List Nat → HttpStatus) : Server :=
  { s with post := s.post.insert path (BoxedService.from_handler ws handler) }

/-- The registry lookup step of `Server::handle_request` (`server.rs` lines
46-56): the `match request.ty` that consults `self.get` or `self.post`. -/
def Server.lookup (s : Server) (ty : RequestType) (path : String) :
    Option BoxedService :=
  match ty with
  | RequestType.get => s.get path
  | RequestType.post => s.post path

/-- Method `Server::handle_request` (`server.rs` lines 45-59): look the path
up in the verb's map; if absent return `Err("missing get/post handler for
path {path}")`, else wrap the request payload in a `Payload` and return
`Ok(service.handle(payload))`. -/
def Server.handle_request (s : Server) (req : Request) : Except String HttpStatus :=
  match req.ty with
  | RequestType.get =>
    match s.get req.path with
    | some svc => Except.ok (svc.service (Payload.from_bytes req.payload))
    | none => Except.error ("missing get handler for path " ++ pathDisplay req.path)
  | RequestType.post =>
    match s.post req.path with
    | some svc => Except.ok (svc.service (Payload.from_bytes req.payload))
    | none => Except.error ("missing post handler for path " ++ pathDisplay req.path)

/-! Helper lemmas about the cursor and the tuple decoder. -/

/-- A successful basic read requires only that the stored `len` field is at
least the read size; it returns the raw read at the current offset and
advances the pointer by the read size, leaving `buf` and `len` unchanged. -/
theorem readBasic_ok {s : Nat} {p : Payload} {v : Nat} {p' : Payload}
    (h : readBasic s p = Except.ok (v, p')) :
    s ≤ p.len ∧ v = readRaw p.buf p.off s ∧ p' = { p with off := p.off + s } := by
  by_cases hle : s ≤ p.len
  · rw [readBasic, if_pos hle] at h
    simp only [Except.ok.injEq, Prod.mk.injEq] at h
    exact ⟨hle, h.1.symm, h.2.symm⟩
  · rw [readBasic, if_neg hle] at h
    exact Except.noConfusion h

/-- A basic read succeeds whenever the stored `len` field allows it. -/
theorem readBasic_of_le {s : Nat} {p : Payload} (hle : s ≤ p.len) :
    readBasic s p = Except.ok (readRaw p.buf p.off s, { p with off := p.off + s }) := by
  rw [readBasic, if_pos hle]

/-- Decoding a concatenated width list runs the first list, then the second
on the resulting cursor, concatenating the decoded values. -/
theorem decodeTuple_append (ws1 ws2 : List Nat) (p : Payload) :
    decodeTuple (ws1 ++ ws2) p =
      match decodeTuple ws1 p with
      | Except.error e => Except.error e
      | Except.ok (vs1, p1) =>
        match decodeTuple ws2 p1 with
        | Except.error e => Except.error e
        | Except.ok (vs2, p2) => Except.ok (vs1 ++ vs2, p2) := by
  induction ws1 generalizing p with
  | nil =>
    cases h : decodeTuple ws2 p with
    | error e => simp [decodeTuple, h]
    | ok r =>
      obtain ⟨vs2, p2⟩ := r
      simp [decodeTuple, h]
  | cons s rest ih =>
    cases hr : readBasic s p with
    | error e => simp [decodeTuple, hr]
    | ok r =>
      obtain ⟨v, p1⟩ := r
      cases h1 : decodeTuple rest p1 with
      | error e => simp [decodeTuple, hr, ih, h1]
      | ok r1 =>
        obtain ⟨vs1, p2⟩ := r1
        cases h2 : decodeTuple ws2 p2 with
        | error e => simp [decodeTuple, hr, ih, h1, h2]
        | ok r2 =>
          obtain ⟨vs2, p3⟩ := r2
          simp [decodeTuple, hr, ih, h1, h2]

/-- A successful tuple decode leaves `buf` and the stored `len` unchanged,
advances the pointer by exactly the sum of the element widths, and returns
one value per element. -/
theorem decodeTuple_ok_state {ws : List Nat} {p : Payload} {vs : List Nat}
    {p' : Payload} (h : decodeTuple ws p = Except.ok (vs, p')) :
    p'.buf = p.buf ∧ p'.len = p.len ∧ p'.off = p.off + ws.sum ∧
      vs.length = ws.length := by
  induction ws generalizing p vs with
  | nil =>
    simp only [decodeTuple, Except.ok.injEq, Prod.mk.injEq] at h
    obtain ⟨hvs, hp⟩ := h
    subst hvs
    subst hp
    simp
  | cons s rest ih =>
    cases hr : readBasic s p with
    | error e => simp [decodeTuple, hr] at h
    | ok r =>
      obtain ⟨v, p1⟩ := r
      cases hd : decodeTuple rest p1 with
      | error e => simp [decodeTuple, hr, hd] at h
      | ok r2 =>
        obtain ⟨vs2, p2⟩ := r2
        simp only [decodeTuple, hr, hd, Except.ok.injEq, Prod.mk.injEq] at h
        obtain ⟨hvs, hp2⟩ := h
        subst hp2
        subst hvs
        obtain ⟨hsle, hvraw, hp1⟩ := readBasic_ok hr
        obtain ⟨hb, hl, ho, hlen⟩ := ih hd
        subst hp1
        refine ⟨hb, hl, ?_, ?_⟩
        · simp only [List.sum_cons]
          simp at ho
          omega
        · simp [hlen]

/-- A tuple decode succeeds whenever the stored `len` field is at least the
sum of the element widths (note: the stored `len`, which reads do not
decrement — not the number of bytes actually remaining). -/
theorem decodeTuple_ok_of_sum_le {ws : List Nat} {p : Payload}
    (h : ws.sum ≤ p.len) :
    ∃ vs p', decodeTuple ws p = Except.ok (vs, p') := by
  induction ws generalizing p with
  | nil => exact ⟨[], p, rfl⟩
  | cons s rest ih =>
    have hsum : s + rest.sum ≤ p.len := by simpa using h
    have hs : s ≤ p.len := by omega
    have hrest : rest.sum ≤ ({ p with off := p.off + s } : Payload).len := by
      simp only []
      omega
    obtain ⟨vs, p', hdec⟩ := ih hrest
    refine ⟨readRaw p.buf p.off s :: vs, p', ?_⟩
    simp [decodeTuple, readBasic_of_le hs, hdec]

/-- Encoding a `w`-byte scalar produces exactly `w` bytes. -/
theorem encodeLE_length (w v : Nat) : (encodeLE w v).length = w := by
  induction w generalizing v with
  | zero => rfl
  | succ w ih => simp [encodeLE, ih]

/-- The little-endian value of the encoding is the bit pattern reduced
modulo `256 ^ w`. -/
theorem leVal_encodeLE (w v : Nat) : leVal (encodeLE w v) = v % 256 ^ w := by
  induction w generalizing v with
  | zero => simp [encodeLE, leVal, Nat.mod_one]
  | succ w ih =>
    rw [encodeLE, leVal, ih, pow_succ']
    rw [Nat.mod_mul]

/-- Every `BasicType` has a positive byte width. -/
theorem ScalarType.size_pos (T : ScalarType) : 1 ≤ T.size := by
  cases T <;> decide

/-- The two's-complement bit pattern of a `w`-byte signed value fits in
`w` bytes. -/
theorem toBits_lt (w : Nat) (i : Int) : toBits w i < 256 ^ w := by
  have h2 : (0 : Int) < 2 ^ (8 * w) := by positivity
  have hlt := Int.emod_lt_of_pos i h2
  have h0 := Int.emod_nonneg i (ne_of_gt h2)
  have hcast : ((256 ^ w : Nat) : Int) = 2 ^ (8 * w) := by
    push_cast
    rw [show ((256 : Int) ^ w = 2 ^ (8 * w)) from by
      rw [pow_mul]
      norm_num]
  rw [toBits]
  omega

/-- Reading a `w`-byte signed value back from its two's-complement bit
pattern recovers the value, for in-range values. -/
theorem fromBits_toBits {w : Nat} (hw : 1 ≤ w) {i : Int}
    (hlo : -((2 : Int) ^ (8 * w - 1)) ≤ i) (hhi : i < (2 : Int) ^ (8 * w - 1)) :
    fromBits w (toBits w i) = i := by
  have hsplit : (2 : Int) ^ (8 * w) = 2 ^ (8 * w - 1) * 2 := by
    rw [← pow_succ]
    congr 1
    omega
  have hhpos : (0 : Int) < 2 ^ (8 * w - 1) := by positivity
  have hcast : ((2 ^ (8 * w - 1) : Nat) : Int) = 2 ^ (8 * w - 1) := by push_cast; ring
  rcases le_or_lt 0 i with hpos | hneg
  · have hmod : i % (2 : Int) ^ (8 * w) = i := Int.emod_eq_of_lt hpos (by omega)
    rw [toBits, fromBits, hmod, if_pos (by omega)]
    exact Int.toNat_of_nonneg hpos
  · have hge : (0 : Int) ≤ i + 2 ^ (8 * w) := by omega
    have hmod : i % (2 : Int) ^ (8 * w) = i + 2 ^ (8 * w) := by
      rw [show i % (2 : Int) ^ (8 * w) = (i + 2 ^ (8 * w) * 1) % 2 ^ (8 * w) from by
        rw [Int.add_mul_emod_self_left]]
      rw [Int.mul_one]
      exact Int.emod_eq_of_lt hge (by omega)
    rw [toBits, fromBits, hmod, if_neg (by omega)]
    omega

/-- Reading a `w`-byte scalar from a cursor over exactly its little-endian
encoding succeeds, yields the bit pattern back, and leaves the cursor at
the end of the buffer with the stored `len` still equal to the buffer
length. -/
theorem readBasic_encodeLE {w v : Nat} (hv : v < 256 ^ w) :
    readBasic w (Payload.from_bytes (encodeLE w v)) =
      Except.ok (v, { buf := encodeLE w v, off := w, len := w }) := by
  have hlen : (encodeLE w v).length = w := encodeLE_length w v
  have hle : w ≤ (Payload.from_bytes (encodeLE w v)).len := by
    simp [Payload.from_bytes, hlen]
  rw [readBasic_of_le hle]
  congr 1
  refine Prod.ext ?_ ?_
  · show readRaw (encodeLE w v) 0 w = v
    rw [readRaw, List.drop_zero, List.take_of_length_le (le_of_eq hlen),
      leVal_encodeLE, Nat.mod_eq_of_lt hv]
  · show ({ Payload.from_bytes (encodeLE w v) with
        off := (Payload.from_bytes (encodeLE w v)).off + w } : Payload) =
      { buf := encodeLE w v, off := w, len := w }
    simp [Payload.from_bytes, hlen]

/-! Claim theorems. -/

/-- Claim C1 (refuted — evidence of the code bug): the claim says a read of
size `s` succeeds only when `offset + s ≤ buffer length` and the cursor
never ends up out of bounds. In the code, a read's guard compares `s`
against the stored `len` field, which is never decremented, so decoding the
pair `(u32, u32)` from a 4-byte buffer succeeds: the second size-4 read
starts at offset 4 of a 4-byte buffer — entirely past the end (undefined
behavior in the Rust source, modeled here by zero bytes) — and the final
cursor offset is 8, out of bounds of the 4-byte buffer. -/
theorem c1_read_past_end :
    decodeTuple [ScalarType.u32.size, ScalarType.u32.size]
        (Payload.from_bytes [0, 0, 0, 0]) =
      Except.ok ([0, 0], { buf := [0, 0, 0, 0], off := 8, len := 4 }) ∧
    (Payload.from_bytes [0, 0, 0, 0]).buf.length = 4 ∧
    4 + ScalarType.u32.size > (Payload.from_bytes [0, 0, 0, 0]).buf.length :=
  ⟨rfl, rfl, by decide⟩

/-- Claim C2 (refuted — evidence of the code bug): route `/x` is registered
with a handler taking `(u32, u32)`, whose widths sum to 8, and is dispatched
with a 4-byte payload. The claim says the dispatch returns `Failed` without
invoking the handler; instead the buggy bounds check lets both reads
"succeed" (the second one out of bounds), the handler is invoked, and its
own status `Success` is returned. -/
theorem c2_short_payload_invokes_handler :
    (Server.new.route_get "/x" [ScalarType.u32.size, ScalarType.u32.size]
        (fun _ => HttpStatus.Success)).handle_request
      { ty := RequestType.get, path := "/x", payload := [0, 0, 0, 0] } =
      Except.ok HttpStatus.Success ∧
    [0, 0, 0, 0].length < [ScalarType.u32.size, ScalarType.u32.size].sum :=
  ⟨rfl, by decide⟩

/-- Claim C3 (confirmed): for every supported scalar type and every value —
bit patterns `v < 256 ^ size` cover the unsigned integers and the floats,
and the signed integers are covered through their two's-complement pattern —
encoding as little-endian fixed-width bytes and decoding through the payload
cursor succeeds and returns exactly the value. -/
theorem c3_scalar_roundtrip (T : ScalarType) (v : Nat) (i : Int)
    (hv : v < 256 ^ T.size)
    (hlo : -((2 : Int) ^ (8 * T.size - 1)) ≤ i)
    (hhi : i < (2 : Int) ^ (8 * T.size - 1)) :
    readBasic T.size (Payload.from_bytes (encodeLE T.size v)) =
      Except.ok (v, { buf := encodeLE T.size v, off := T.size, len := T.size }) ∧
    (readBasic T.size
        (Payload.from_bytes (encodeLE T.size (toBits T.size i)))).map
        (fun r => fromBits T.size r.1) =
      Except.ok i := by
  constructor
  · exact readBasic_encodeLE hv
  · rw [readBasic_encodeLE (toBits_lt T.size i)]
    show Except.ok (fromBits T.size (toBits T.size i)) = Except.ok i
    rw [fromBits_toBits (ScalarType.size_pos T) hlo hhi]

/-- Witness for C3 at `u16` with bit pattern 513 and signed value `-5`. -/
theorem c3_scalar_roundtrip_witness :
    readBasic ScalarType.u16.size
        (Payload.from_bytes (encodeLE ScalarType.u16.size 513)) =
      Except.ok (513, { buf := encodeLE ScalarType.u16.size 513,
                        off := ScalarType.u16.size,
                        len := ScalarType.u16.size }) ∧
    (readBasic ScalarType.u16.size
        (Payload.from_bytes (encodeLE ScalarType.u16.size
          (toBits ScalarType.u16.size (-5))))).map
        (fun r => fromBits ScalarType.u16.size r.1) =
      Except.ok (-5) :=
  c3_scalar_roundtrip ScalarType.u16 513 (-5) (by decide) (by decide) (by decide)

/-- Claim C4 (confirmed): tuple decoding is sequential in declared order —
decoding a width list split as `ws1 ++ ws2` first decodes `ws1` and then
decodes `ws2` from the resulting cursor; it short-circuits, returning the
first element's decode error without decoding subsequent elements; and a
successful decode advances the cursor by exactly the sum of the element
widths (no padding), one decoded value per element. Stated for the arities
the macro generates (1 through 10). -/
theorem c4_tuple_order (ws : List Nat) (p : Payload)
    (har1 : 1 ≤ ws.length) (har10 : ws.length ≤ 10) :
    (∀ ws1 ws2 vs1 p1, ws = ws1 ++ ws2 →
        decodeTuple ws1 p = Except.ok (vs1, p1) →
        decodeTuple ws p =
          (decodeTuple ws2 p1).map (fun r => (vs1 ++ r.1, r.2))) ∧
    (∀ ws1 s ws2 vs1 p1 e, ws = ws1 ++ s :: ws2 →
        decodeTuple ws1 p = Except.ok (vs1, p1) →
        readBasic s p1 = Except.error e →
        decodeTuple ws p = Except.error e) ∧
    (∀ vs p', decodeTuple ws p = Except.ok (vs, p') →
        p'.buf = p.buf ∧ p'.len = p.len ∧ p'.off = p.off + ws.sum ∧
        vs.length = ws.length) := by
  refine ⟨?_, ?_, ?_⟩
  · intro ws1 ws2 vs1 p1 hsplit h1
    subst hsplit
    rw [decodeTuple_append, h1]
    cases h2 : decodeTuple ws2 p1 with
    | error e => simp [h2, Except.map]
    | ok r =>
      obtain ⟨vs2, p2⟩ := r
      simp [h2, Except.map]
  · intro ws1 s ws2 vs1 p1 e hsplit h1 hr
    subst hsplit
    rw [decodeTuple_append, h1]
    simp [decodeTuple, hr]
  · intro vs p' h
    exact decodeTuple_ok_state h

/-- Witness for C4 at the width list `[1, 1]` over the buffer `[5, 6]`. -/
theorem c4_tuple_order_witness :
    decodeTuple [1, 1] (Payload.from_bytes [5, 6]) =
      (decodeTuple [1] { buf := [5, 6], off := 1, len := 2 }).map
        (fun r => ([5] ++ r.1, r.2)) :=
  (c4_tuple_order [1, 1] (Payload.from_bytes [5, 6]) (by decide) (by decide)).1
    [1] [1] [5] { buf := [5, 6], off := 1, len := 2 } rfl rfl

/-- Claim C5 (refuted — evidence of the code bug): the claim says the length
query returns buffer length minus offset, decreasing by `sizeof(T)` after
each successful read. In the code, `Payload::len()` returns the stored `len`
field, which a successful read never updates: after reading a `u32` from an
8-byte buffer, the stored `len` is still 8, while only 4 bytes remain
(`buf.length - off = 4`). -/
theorem c5_len_not_decremented :
    readBasic ScalarType.u32.size
        (Payload.from_bytes [0, 0, 0, 0, 0, 0, 0, 0]) =
      Except.ok (0, { buf := [0, 0, 0, 0, 0, 0, 0, 0], off := 4, len := 8 }) ∧
    ¬ (8 : Nat) = 8 - ScalarType.u32.size :=
  ⟨rfl, by decide⟩

/-- Claim C6 (confirmed): the nullary tuple always decodes successfully and
consumes zero bytes regardless of the payload, and for any width list whose
sum is at most the payload length, decoding succeeds — trailing extra bytes
never cause a decode failure. -/
theorem c6_nullary_and_trailing (ws bytes : List Nat)
    (h : ws.sum ≤ bytes.length) :
    (∀ p : Payload, decodeTuple [] p = Except.ok ([], p)) ∧
    ∃ vs p', decodeTuple ws (Payload.from_bytes bytes) = Except.ok (vs, p') := by
  refine ⟨fun p => rfl, ?_⟩
  exact decodeTuple_ok_of_sum_le h

/-- Witness for C6: one `u8`-width argument against a longer 2-byte payload,
and the nullary decode against an unrelated payload. -/
theorem c6_nullary_and_trailing_witness :
    (∀ p : Payload, decodeTuple [] p = Except.ok ([], p)) ∧
    ∃ vs p', decodeTuple [1] (Payload.from_bytes [7, 8]) = Except.ok (vs, p') :=
  c6_nullary_and_trailing [1] [7, 8] (by decide)

/-- Claim C7 (confirmed): dispatching a (verb, path) with no registered
handler returns the `missing ... handler` error — an `Err`, which is by
construction distinct from the `Ok(Failed)` a decode failure produces — and
never an `Ok` outcome, so no handler is invoked. -/
theorem c7_route_not_found (s : Server) (path : String) (payload : List Nat) :
    (s.get path = none →
      s.handle_request { ty := RequestType.get, path := path, payload := payload } =
        Except.error ("missing get handler for path " ++ pathDisplay path) ∧
      ∀ st : HttpStatus,
        s.handle_request { ty := RequestType.get, path := path, payload := payload } ≠
          Except.ok st) ∧
    (s.post path = none →
      s.handle_request { ty := RequestType.post, path := path, payload := payload } =
        Except.error ("missing post handler for path " ++ pathDisplay path) ∧
      ∀ st : HttpStatus,
        s.handle_request { ty := RequestType.post, path := path, payload := payload } ≠
          Except.ok st) := by
  constructor
  · intro hg
    have hres : s.handle_request
        { ty := RequestType.get, path := path, payload := payload } =
        Except.error ("missing get handler for path " ++ pathDisplay path) := by
      simp [Server.handle_request, hg]
    refine ⟨hres, fun st hok => ?_⟩
    rw [hres] at hok
    exact Except.noConfusion hok
  · intro hp
    have hres : s.handle_request
        { ty := RequestType.post, path := path, payload := payload } =
        Except.error ("missing post handler for path " ++ pathDisplay path) := by
      simp [Server.handle_request, hp]
    refine ⟨hres, fun st hok => ?_⟩
    rw [hres] at hok
    exact Except.noConfusion hok

/-- Witness for C7 on the empty server at path `/404`. -/
theorem c7_route_not_found_witness :
    Server.new.handle_request
        { ty := RequestType.get, path := "/404", payload := [] } =
      Except.error ("missing get handler for path " ++ pathDisplay "/404") :=
  (((c7_route_not_found Server.new "/404" []).1) rfl).1

/-- Claim C8 (confirmed): registering twice under the same (verb, path)
silently replaces the binding — registration is a total operation that
raises no error, and a subsequent dispatch to that (verb, path) returns
exactly the newest handler's service result, for either verb. -/
theorem c8_reregistration_replaces (s : Server) (path : String)
    (ws1 ws2 : List Nat) (f1 f2 : List Nat → HttpStatus) (payload : List Nat) :
    ((s.route_get path ws1 f1).route_get path ws2 f2).handle_request
        { ty := RequestType.get, path := path, payload := payload } =
      Except.ok ((BoxedService.from_handler ws2 f2).service
        (Payload.from_bytes payload)) ∧
    ((s.route_post path ws1 f1).route_post path ws2 f2).handle_request
        { ty := RequestType.post, path := path, payload := payload } =
      Except.ok ((BoxedService.from_handler ws2 f2).service
        (Payload.from_bytes payload)) := by
  constructor <;>
    simp [Server.handle_request, Server.route_get, Server.route_post,
      RouteMap.insert]

/-- Claim C9 (confirmed): the dispatcher returns an `Err` exactly when the
(verb, path) route is unregistered; a registered route always yields an
`Ok` with the service's outcome; and inside the service a decode failure is
converted to the normal-flow outcome `Failed` — it never leaves the service
as an error. -/
theorem c9_decode_failure_contained (s : Server) (req : Request)
    (ws : List Nat) (hdl : List Nat → HttpStatus) (bytes : List Nat)
    (msg : String)
    (hfail : decodeTuple ws (Payload.from_bytes bytes) = Except.error msg) :
    ((∃ e, s.handle_request req = Except.error e) ↔
      s.lookup req.ty req.path = none) ∧
    (∀ svc, s.lookup req.ty req.path = some svc →
      s.handle_request req =
        Except.ok (svc.service (Payload.from_bytes req.payload))) ∧
    (BoxedService.from_handler ws hdl).service (Payload.from_bytes bytes) =
      HttpStatus.Failed := by
  obtain ⟨ty, path, payload⟩ := req
  refine ⟨?_, ?_, ?_⟩
  · cases ty with
    | get =>
      cases hl : s.get path with
      | none => simp [Server.handle_request, Server.lookup, hl]
      | some svc => simp [Server.handle_request, Server.lookup, hl]
    | post =>
      cases hl : s.post path with
      | none => simp [Server.handle_request, Server.lookup, hl]
      | some svc => simp [Server.handle_request, Server.lookup, hl]
  · intro svc hsvc
    cases ty with
    | get =>
      simp only [Server.lookup] at hsvc
      simp [Server.handle_request, hsvc]
    | post =>
      simp only [Server.lookup] at hsvc
      simp [Server.handle_request, hsvc]
  · simp [BoxedService.from_handler, hfail]

/-- Witness for C9 on the empty server, with a one-`u8` argument list
against the empty payload (whose decode fails). -/
theorem c9_decode_failure_contained_witness :
    ((∃ e, Server.new.handle_request
        { ty := RequestType.get, path := "/404", payload := [] } =
          Except.error e) ↔
      Server.new.lookup RequestType.get "/404" = none) ∧
    (∀ svc, Server.new.lookup RequestType.get "/404" = some svc →
      Server.new.handle_request
          { ty := RequestType.get, path := "/404", payload := [] } =
        Except.ok (svc.service (Payload.from_bytes []))) ∧
    (BoxedService.from_handler [1] (fun _ => HttpStatus.Success)).service
        (Payload.from_bytes []) = HttpStatus.Failed :=
  c9_decode_failure_contained Server.new
    { ty := RequestType.get, path := "/404", payload := [] }
    [1] (fun _ => HttpStatus.Success) [] "Failed to extract args from payload" rfl

/-- Claim C10 (confirmed): the two verb namespaces are independent.
Registering under GET leaves the POST map unchanged and vice versa;
GET dispatch depends only on the GET map (and POST dispatch only on the
POST map); and a path registered under one verb only still produces the
`missing ... handler` error when dispatched under the other verb. -/
theorem c10_verb_independence (s s1 s2 : Server) (path : String)
    (ws : List Nat) (hdl : List Nat → HttpStatus) (payload : List Nat)
    (hg : s.get = s1.get) (hp : s.post = s2.post)
    (hpn : s.post path = none) (hgn : s.get path = none) :
    (s.route_get path ws hdl).post = s.post ∧
    (s.route_post path ws hdl).get = s.get ∧
    s.handle_request { ty := RequestType.get, path := path, payload := payload } =
      s1.handle_request { ty := RequestType.get, path := path, payload := payload } ∧
    s.handle_request { ty := RequestType.post, path := path, payload := payload } =
      s2.handle_request { ty := RequestType.post, path := path, payload := payload } ∧
    (s.route_get path ws hdl).handle_request
        { ty := RequestType.post, path := path, payload := payload } =
      Except.error ("missing post handler for path " ++ pathDisplay path) ∧
    (s.route_post path ws hdl).handle_request
        { ty := RequestType.get, path := path, payload := payload } =
      Except.error ("missing get handler for path " ++ pathDisplay path) := by
  refine ⟨rfl, rfl, ?_, ?_, ?_, ?_⟩
  · simp [Server.handle_request, hg]
  · simp [Server.handle_request, hp]
  · simp [Server.handle_request, Server.route_get, hpn]
  · simp [Server.handle_request, Server.route_post, hgn]

/-- Witness for C10 on the empty server at path `/x` with a nullary handler. -/
theorem c10_verb_independence_witness :
    (Server.new.route_get "/x" [] (fun _ => HttpStatus.Success)).post =
      Server.new.post ∧
    (Server.new.route_post "/x" [] (fun _ => HttpStatus.Success)).get =
      Server.new.get ∧
    Server.new.handle_request
        { ty := RequestType.get, path := "/x", payload := [] } =
      Server.new.handle_request
        { ty := RequestType.get, path := "/x", payload := [] } ∧
    Server.new.handle_request
        { ty := RequestType.post, path := "/x", payload := [] } =
      Server.new.handle_request
        { ty := RequestType.post, path := "/x", payload := [] } ∧
    (Server.new.route_get "/x" [] (fun _ => HttpStatus.Success)).handle_request
        { ty := RequestType.post, path := "/x", payload := [] } =
      Except.error ("missing post handler for path " ++ pathDisplay "/x") ∧
    (Server.new.route_post "/x" [] (fun _ => HttpStatus.Success)).handle_request
        { ty := RequestType.get, path := "/x", payload := [] } =
      Except.error ("missing get handler for path " ++ pathDisplay "/x") :=
  c10_verb_independence Server.new Server.new Server.new "/x" []
    (fun _ => HttpStatus.Success) [] rfl rfl rfl rfl

end ServerInRust
